import Mathlib

set_option maxHeartbeats 1000000

/-!
Verification of the medical-note generation backend.

This file gives a shallow embedding of the parts of the repository that the
specification's claims are about:

* `src/backend/LLM/gemini.py` — the LLM call orchestrator
  (`Gemini._call_api_with_retry`, `Gemini._is_rate_limit_error`, the
  `FALLBACK_MODELS` list, and `Gemini.gemini_transcribe`);
* `src/backend/template_generator.py` — `generate_template_fields`, with its
  brace-depth JSON-boundary scan;
* `src/backend/note_generator.py` — `generate_note_from_text`, with its
  first-`\x7b`-to-last-`\x7d` slice;
* `src/backend/text_cleaner.py` — `format_text` and `clean_text`.

External effects (the remote generate call, `time.sleep`, the file
upload/poll/delete boundary, `json.loads`) are modelled as oracle parameters
and as an explicit event trace, so that each theorem is about the control
flow the Python code performs around those calls.  Text is modelled as
`List Char` (Python `str` is a sequence of code points), and machine floats
that the claims never inspect (elapsed times) are carried as opaque
formatted strings, exactly as the code formats them into its results.
-/

/-- The opening curly brace character, via its code point. -/
def lbrace : Char := Char.ofNat 123

/-- The closing curly brace character, via its code point. -/
def rbrace : Char := Char.ofNat 125

/-- `startsWithChars pat cs` is true when `pat` is an initial segment of
`cs`: the character-list analogue of matching a Python substring at one
position. -/
def startsWithChars : List Char → List Char → Bool
  | [], _ => true
  | _ :: _, [] => false
  | p :: ps, c :: cs => p == c && startsWithChars ps cs

/-- `hasSubChars pat cs`: does `pat` occur contiguously inside `cs`?  This
models Python's `pat in s` test on strings. -/
def hasSubChars (pat : List Char) : List Char → Bool
  | [] => pat.isEmpty
  | c :: cs => startsWithChars pat (c :: cs) || hasSubChars pat cs

/-- Python `str.lower`, character-wise. -/
def lowerChars (cs : List Char) : List Char := cs.map Char.toLower

/-- Substring test on strings: `containsSub s pat` models Python `pat in s`. -/
def containsSub (s pat : String) : Bool := hasSubChars pat.data s.data

/-- Python `str.strip`: drop whitespace from both ends. -/
def trimChars (cs : List Char) : List Char :=
  ((cs.dropWhile Char.isWhitespace).reverse.dropWhile Char.isWhitespace).reverse

/-- `str.strip` packaged on `String`. -/
def trimStr (s : String) : String := String.mk (trimChars s.data)

/-- `Gemini._is_rate_limit_error` (src/backend/LLM/gemini.py:35-40): the
lowered error message is searched for the five rate-limit keywords. -/
def is_rate_limit_error (error_msg : String) : Bool :=
  [ "rate limit", "quota", "resource exhausted", "429", "too many requests" ].any
    (fun keyword => hasSubChars keyword.data (lowerChars error_msg.data))

/-- The transient-network-error test of `_call_api_with_retry`
(src/backend/LLM/gemini.py:89): `"10013" in error_msg or "11001" in
error_msg or "timeout" in error_msg.lower()`. -/
def is_network_error (error_msg : String) : Bool :=
  containsSub error_msg "10013" || containsSub error_msg "11001" ||
    hasSubChars ( "timeout" : String).data (lowerChars error_msg.data)

/-- `Gemini.FALLBACK_MODELS` (src/backend/LLM/gemini.py:18-22). -/
def FALLBACK_MODELS : List String :=
  [ "gemini-2.5-flash-lite", "gemini-2.5-flash", "gemini-3.0-flash" ]

/-- The candidate model sequence of `_call_api_with_retry`
(src/backend/LLM/gemini.py:57):
`[model] + [m for m in self.FALLBACK_MODELS if m != model]`. -/
def models_to_try (model : String) : List String :=
  model :: FALLBACK_MODELS.filter (fun m => m != model)

/-- Outcome of one remote `generate_content` call, as reported by the
oracle standing for the network: the raw response text, or the message of
the raised exception. -/
inductive ApiOutcome where
  | success : String → ApiOutcome
  | failure : String → ApiOutcome

/-- Observable events emitted by the retry loop: an API attempt against a
model (0-based attempt index), or a `time.sleep` call with its argument in
seconds. -/
inductive Event where
  | attempt : String → Nat → Event
  | sleep : Nat → Event
deriving DecidableEq

/-- How the per-model attempt loop of `_call_api_with_retry` ends:
a returned text, a propagating exception, or falling out of the loop with
the last recorded error (`None` when the loop body never ran). -/
inductive InnerOutcome where
  | success : String → InnerOutcome
  | raised : String → InnerOutcome
  | exhausted : Option String → InnerOutcome
deriving DecidableEq

/-- The body of `for attempt in range(max_retries)` in
`_call_api_with_retry` (src/backend/LLM/gemini.py:63-96), with the
remaining iteration count made an explicit structural argument
(`fuel = max_retries - attempt`).  Each iteration: call the API; on success
return the stripped text; on a rate-limit-classified error break out of the
loop with that error recorded; on a transient network error with retries
remaining sleep `retry_delay` seconds, double the delay and continue; on
any other error re-raise. -/
def runAttemptsAux (beh : Nat → ApiOutcome) (model_name : String) (max_retries : Nat) :
    Nat → Nat → Nat → Option String → InnerOutcome × List Event
  | 0, _, _, last_error => (InnerOutcome.exhausted last_error, [])
  | fuel + 1, attempt, retry_delay, _ =>
    match beh attempt with
    | ApiOutcome.success t => (InnerOutcome.success (trimStr t), [Event.attempt model_name attempt])
    | ApiOutcome.failure msg =>
      if is_rate_limit_error msg then
        (InnerOutcome.exhausted (some msg), [Event.attempt model_name attempt])
      else if is_network_error msg ∧ attempt < max_retries - 1 then
        ((runAttemptsAux beh model_name max_retries fuel (attempt + 1) (retry_delay * 2) (some msg)).1,
          Event.attempt model_name attempt :: Event.sleep retry_delay ::
            (runAttemptsAux beh model_name max_retries fuel (attempt + 1) (retry_delay * 2) (some msg)).2)
      else
        (InnerOutcome.raised msg, [Event.attempt model_name attempt])

/-- The per-model attempt loop, entered at a given attempt index with a
given current `retry_delay` and last recorded error. -/
def runAttempts (beh : Nat → ApiOutcome) (model_name : String)
    (max_retries attempt retry_delay : Nat) (last_error : Option String) :
    InnerOutcome × List Event :=
  runAttemptsAux beh model_name max_retries (max_retries - attempt) attempt retry_delay last_error

/-- Terminal outcome of `_call_api_with_retry`: generated text, or a
propagating exception message. -/
inductive CallOutcome where
  | ok : String → CallOutcome
  | raised : String → CallOutcome
deriving DecidableEq

/-- Python `", ".join`. -/
def join_comma : List String → String
  | [] => ""
  | [s] => s
  | s :: rest => s ++ ", " ++ join_comma rest

/-- The aggregate failure raised after the model loop
(src/backend/LLM/gemini.py:101). -/
def aggregate_message (models : List String) : String :=
  "API rate limit exceeded on all models. Models tried: " ++ join_comma models

/-- The `for model_name in models_to_try` loop of `_call_api_with_retry`
(src/backend/LLM/gemini.py:59-101).  For each candidate model the attempt
loop runs from attempt 0 with `retry_delay = 2` and no recorded error;
afterwards, a recorded non-rate-limit last error is re-raised
(src/backend/LLM/gemini.py:98-99), otherwise the next candidate is tried;
when the candidates run out the aggregate rate-limit error is raised. -/
def runModels (beh : String → Nat → ApiOutcome) (max_retries : Nat) (all_models : List String) :
    List String → CallOutcome × List Event
  | [] => (CallOutcome.raised (aggregate_message all_models), [])
  | m :: rest =>
    match runAttempts (beh m) m max_retries 0 2 none with
    | (InnerOutcome.success t, evs) => (CallOutcome.ok t, evs)
    | (InnerOutcome.raised msg, evs) => (CallOutcome.raised msg, evs)
    | (InnerOutcome.exhausted (some e), evs) =>
      if is_rate_limit_error e then
        ((runModels beh max_retries all_models rest).1,
          evs ++ (runModels beh max_retries all_models rest).2)
      else (CallOutcome.raised e, evs)
    | (InnerOutcome.exhausted none, evs) =>
      ((runModels beh max_retries all_models rest).1,
        evs ++ (runModels beh max_retries all_models rest).2)

/-- `Gemini._call_api_with_retry` (src/backend/LLM/gemini.py:42-101),
parameterized by the API oracle `beh` (model name and attempt index to
outcome): returns the terminal outcome together with the trace of attempts
and sleeps. -/
def call_api_with_retry (beh : String → Nat → ApiOutcome) (model : String)
    (max_retries : Nat := 3) : CallOutcome × List Event :=
  runModels beh max_retries (models_to_try model) (models_to_try model)

/-- `runModels` with the post-loop non-rate-limit re-raise branch
(src/backend/LLM/gemini.py:98-99) removed: a model whose loop exits with a
recorded last error always hands over to the next candidate.  Used to show
that branch unreachable. -/
def runModelsNoRecheck (beh : String → Nat → ApiOutcome) (max_retries : Nat) (all_models : List String) :
    List String → CallOutcome × List Event
  | [] => (CallOutcome.raised (aggregate_message all_models), [])
  | m :: rest =>
    match runAttempts (beh m) m max_retries 0 2 none with
    | (InnerOutcome.success t, evs) => (CallOutcome.ok t, evs)
    | (InnerOutcome.raised msg, evs) => (CallOutcome.raised msg, evs)
    | (InnerOutcome.exhausted _, evs) =>
      ((runModelsNoRecheck beh max_retries all_models rest).1,
        evs ++ (runModelsNoRecheck beh max_retries all_models rest).2)

/-- Does an event record an API attempt against model `m`? -/
def isAttemptOn (m : String) : Event → Bool
  | Event.attempt m' _ => m' == m
  | Event.sleep _ => false

/-- Number of API attempts against model `m` in a trace. -/
def attemptsOn (m : String) (evs : List Event) : Nat := evs.countP (isAttemptOn m)

/-- The sleep durations of a trace, in order. -/
def sleepsOf (evs : List Event) : List Nat :=
  evs.filterMap (fun ev => match ev with
    | Event.sleep n => some n
    | Event.attempt _ _ => none)

/-- Index of the first occurrence of a character: Python `str.find`
restricted to single characters, with `None` for "not found". -/
def findCharIdx (c : Char) : List Char → Option Nat
  | [] => none
  | x :: xs => if x == c then some 0 else (findCharIdx c xs).map (fun i => i + 1)

/-- Index of the last occurrence of a character: Python `str.rfind`,
with `None` for "not found". -/
def rfindCharIdx (c : Char) : List Char → Option Nat
  | [] => none
  | x :: xs =>
    match rfindCharIdx c xs with
    | some i => some (i + 1)
    | none => if x == c then some 0 else none

/-- The brace-depth scan of `generate_template_fields`
(src/backend/template_generator.py:148-157): starting from absolute index
`i` with running count `depth`, count `+1` at an opening and `-1` at a
closing brace, and return the absolute index of the closing brace at which
the count returns to zero, or `None` when the text ends first. -/
def scanClose : List Char → Int → Nat → Option Nat
  | [], _, _ => none
  | ch :: rest, depth, i =>
    if ch == lbrace then scanClose rest (depth + 1) (i + 1)
    else if ch == rbrace then
      (if depth - 1 = 0 then some i else scanClose rest (depth - 1) (i + 1))
    else scanClose rest depth (i + 1)

/-- JSON-candidate selection of `generate_template_fields`
(src/backend/template_generator.py:142-162): find the first opening brace
(`ValueError("No JSON found in model output")` when absent), scan for the
depth-matching closing brace (`ValueError("No matching closing brace found
in JSON")` when the text ends first), and slice
`generated_text[start_idx:end_idx + 1]`. -/
def extract_template_candidate (cs : List Char) : Except String (List Char) :=
  match findCharIdx lbrace cs with
  | none => Except.error "No JSON found in model output"
  | some start_idx =>
    match scanClose (cs.drop start_idx) 0 start_idx with
    | none => Except.error "No matching closing brace found in JSON"
    | some end_idx => Except.ok ((cs.take (end_idx + 1)).drop start_idx)

/-- JSON-candidate selection of `generate_note_from_text`
(src/backend/note_generator.py:121-127): when an opening brace is present,
slice from its first occurrence through the last closing brace of the whole
text (`start = find; end = rfind + 1`, where Python `rfind` yields `-1`,
hence `end = 0`, when no closing brace exists); otherwise use the entire
text. -/
def extract_note_candidate (cs : List Char) : List Char :=
  match findCharIdx lbrace cs with
  | some start_idx =>
    (cs.take (match rfindCharIdx rbrace cs with
      | some j => j + 1
      | none => 0)).drop start_idx
  | none => cs

/-- Net brace count of a character list: `+1` per opening and `-1` per
closing brace.  Specification-side notion used to state what "the
brace-depth-matching closing brace" means. -/
def braceDelta : List Char → Int
  | [] => 0
  | c :: rest =>
    (if c == lbrace then (1 : Int) else if c == rbrace then -1 else 0) + braceDelta rest

/-- JSON values, as far as the embedding needs them: Python `json.loads`
yields nested dicts (key-ordered association lists), lists, strings,
integers, booleans and null. -/
inductive JVal where
  | jstr : String → JVal
  | jnum : Int → JVal
  | jbool : Bool → JVal
  | jnull : JVal
  | jarr : List JVal → JVal
  | jobj : List (String × JVal) → JVal

/-- Python dict item assignment `d[k] = v`: replace the value at an
existing key, else append the pair (insertion order semantics). -/
def setKey (l : List (String × JVal)) (k : String) (v : JVal) : List (String × JVal) :=
  if l.any (fun p => p.1 == k) then l.map (fun p => if p.1 == k then (k, v) else p)
  else l ++ [(k, v)]

/-- Value at a key of a Python dict, if present. -/
def getKey (k : String) : List (String × JVal) → Option JVal
  | [] => none
  | p :: rest => if p.1 == k then some p.2 else getKey k rest

/-- Model of the `TypeError` CPython raises for item assignment on a
non-dict value (`note_json['_generation_time'] = ...` when `json.loads`
returned a non-object); CPython's message also names the value's type,
which this model elides. -/
def item_assign_error : String := "object does not support item assignment"

/-- Result envelope of `generate_template_fields`
(src/backend/template_generator.py:116-120): keys `success`, `fields`,
`error`. -/
structure FieldsResult where
  success : Bool
  fields : List (String × JVal)
  error : String

/-- `generate_template_fields` (src/backend/template_generator.py:106-196),
with the model availability, the model call and `json.loads` as oracle
parameters.  Mirrors the body: model-loaded check, minimum-length check on
the document text, generation (a raised error is caught by the generic
handler), `strip`, brace-depth candidate extraction, JSON parse (a parse
error is reported as `"Failed to parse AI response: "` plus the message),
and the dict-shape check on the parsed value. -/
def generate_template_fields (model_loaded : Bool) (document_text : String)
    (gen : Except String String) (parse : List Char → Except String JVal) : FieldsResult :=
  if model_loaded = false then ⟨false, [], "Model not loaded"⟩
  else if document_text = "" ∨ document_text.length < 50 then
    ⟨false, [], "Document text too short to analyze"⟩
  else
    match gen with
    | Except.error e => ⟨false, [], e⟩
    | Except.ok raw =>
      match extract_template_candidate (trimChars raw.data) with
      | Except.error e => ⟨false, [], e⟩
      | Except.ok json_text =>
        match parse json_text with
        | Except.error e => ⟨false, [], "Failed to parse AI response: " ++ e⟩
        | Except.ok (JVal.jobj fields) => ⟨true, fields, ""⟩
        | Except.ok _ => ⟨false, [], "AI did not return a dict of fields"⟩

/-- `generate_note_from_text` (src/backend/note_generator.py:69-148), with
the model availability, template loading, the model call, the formatted
elapsed time and `json.loads` as oracle parameters.  The returned Python
dict is modelled as an association list.  Mirrors the body: model check,
template check, generation (a raised error is caught by the outer handler
and becomes `\x7b"error": str(e)\x7d`), `strip`, empty-output check, first-brace
to last-brace slice, parse; on success `'_generation_time'` is set on the
parsed dict; on a parse failure the error dict carries the raw generated
text, the parse error message and the elapsed time. -/
def generate_note_from_text (model_loaded : Bool) (template_ok : Bool)
    (gen : Except String String) (gen_time : String)
    (parse : List Char → Except String JVal) : List (String × JVal) :=
  if model_loaded = false then [("error", JVal.jstr "Model not available")]
  else if template_ok = false then [("error", JVal.jstr "Failed to load template")]
  else
    match gen with
    | Except.error e => [("error", JVal.jstr e)]
    | Except.ok raw =>
      if trimChars raw.data = [] then [("error", JVal.jstr "Model generated empty output")]
      else
        match parse (extract_note_candidate (trimChars raw.data)) with
        | Except.ok (JVal.jobj note_json) =>
          setKey note_json "_generation_time" (JVal.jstr gen_time)
        | Except.ok _ => [("error", JVal.jstr item_assign_error)]
        | Except.error je =>
          [("error", JVal.jstr "Model did not return valid JSON"),
           ("raw_output", JVal.jstr (String.mk (trimChars raw.data))),
           ("parse_error", JVal.jstr je),
           ("_generation_time", JVal.jstr gen_time)]

/-- `format_text` (src/backend/text_cleaner.py:57-114): empty-input check,
model check, generation; every failure is caught and reported as `None`,
success returns the stripped generated text. -/
def format_text (model_loaded : Bool) (transcribed_text : String)
    (gen : Except String String) : Option String :=
  if transcribed_text = "" then none
  else if model_loaded = false then none
  else
    match gen with
    | Except.ok t => some (trimStr t)
    | Except.error _ => none

/-- Result envelope of `clean_text` (src/backend/text_cleaner.py:175-179). -/
structure CleanResult where
  success : Bool
  formatted_text : String
  error : String

/-- `clean_text` (src/backend/text_cleaner.py:165-197): run `format_text`;
a `None` outcome raises `ValueError("Formatting failed - returned None")`
which the handler stores as the envelope's error. -/
def clean_text (model_loaded : Bool) (transcribed_text : String)
    (gen : Except String String) : CleanResult :=
  match format_text model_loaded transcribed_text gen with
  | none => ⟨false, "", "Formatting failed - returned None"⟩
  | some t => ⟨true, t, ""⟩

/-- Environment oracle for `gemini_transcribe`: local file facts and the
outcomes of the remote upload, processing poll and generation call. -/
structure TranscribeEnv where
  file_exists : Bool
  file_size : Nat
  upload : Except String String
  poll_state : String
  generation : Except String String

/-- Result envelope of `gemini_transcribe`
(src/backend/LLM/gemini.py:179-184). -/
structure TranscribeResult where
  success : Bool
  text : String
  file_size_mb : ℚ
  error : String

/-- `Gemini.gemini_transcribe` (src/backend/LLM/gemini.py:161-259), with
local file facts and the remote boundary as an environment oracle.  Mirrors
the body: existence check, empty-file check, `file_size_mb` recorded, file
upload (the MIME-type table only parameterizes the upload and is not
observable in the result), poll until the remote state leaves
`"PROCESSING"`, failure check on that state, the generation call, and —
only after a successful generation — `files.delete`.  The second component
reports whether `files.delete` was invoked before returning. -/
def gemini_transcribe (env : TranscribeEnv) (audio_file_path : String) :
    TranscribeResult × Bool :=
  if env.file_exists = false then
    (⟨false, "", 0, "Audio file not found: " ++ audio_file_path⟩, false)
  else if env.file_size = 0 then
    (⟨false, "", 0, "Audio file is empty"⟩, false)
  else
    match env.upload with
    | Except.error e => (⟨false, "", (env.file_size : ℚ) / (1024 * 1024), e⟩, false)
    | Except.ok _ =>
      if env.poll_state = "FAILED" then
        (⟨false, "", (env.file_size : ℚ) / (1024 * 1024),
          "Gemini failed to process audio file"⟩, false)
      else
        match env.generation with
        | Except.error e => (⟨false, "", (env.file_size : ℚ) / (1024 * 1024), e⟩, false)
        | Except.ok t =>
          (⟨true, t, (env.file_size : ℚ) / (1024 * 1024), ""⟩, true)

/-- C1: the candidate model sequence is the primary model first, then each
fallback model different from the primary in the fallback list's original
order; the sequence has no duplicates; and for a primary equal to the
second fallback of the fixed list the sequence is `[M, F1, F3]`. -/
theorem claim_fallback_ordering :
    (∀ model, models_to_try model =
      model :: FALLBACK_MODELS.filter (fun m => m != model)) ∧
    (∀ model, (models_to_try model).Nodup) ∧
    models_to_try "gemini-2.5-flash" =
      [ "gemini-2.5-flash", "gemini-2.5-flash-lite", "gemini-3.0-flash" ] := by
  refine ⟨fun _ => rfl, ?_, by decide⟩
  intro model
  have hnd : FALLBACK_MODELS.Nodup := by decide
  rw [models_to_try, List.nodup_cons]
  refine ⟨?_, hnd.filter _⟩
  intro hmem
  have hp := List.of_mem_filter hmem
  simp at hp

theorem attemptsOn_runAttemptsAux (beh : Nat → ApiOutcome) (m' m : String) (mr : Nat)
    (hne : m' ≠ m) :
    ∀ fuel a d le, attemptsOn m (runAttemptsAux beh m' mr fuel a d le).2 = 0 := by
  intro fuel
  induction fuel with
  | zero => intro a d le; simp [runAttemptsAux, attemptsOn]
  | succ f ih =>
    intro a d le
    simp only [runAttemptsAux]
    cases hb : beh a with
    | success t => simp [attemptsOn, isAttemptOn, hne]
    | failure msg =>
      by_cases hr : is_rate_limit_error msg
      · simp [hr, attemptsOn, isAttemptOn, hne]
      · by_cases hn : is_network_error msg = true ∧ a < mr - 1
        · simpa [hr, hn, attemptsOn, isAttemptOn, hne] using ih (a + 1) (d * 2) (some msg)
        · simp [hr, hn, attemptsOn, isAttemptOn, hne]

theorem attemptsOn_runAttempts (beh : Nat → ApiOutcome) (m' m : String)
    (mr a d : Nat) (le : Option String) (hne : m' ≠ m) :
    attemptsOn m (runAttempts beh m' mr a d le).2 = 0 :=
  attemptsOn_runAttemptsAux beh m' m mr hne (mr - a) a d le

theorem attemptsOn_runModels (beh : String → Nat → ApiOutcome) (mr : Nat)
    (all : List String) (m : String) :
    ∀ l, m ∉ l → attemptsOn m (runModels beh mr all l).2 = 0 := by
  intro l
  induction l with
  | nil => intro _; simp [runModels, attemptsOn]
  | cons m' rest ih =>
    intro hm
    have hne : m' ≠ m := fun h => hm (h ▸ List.mem_cons_self _ _)
    have hrest : m ∉ rest := fun h => hm (List.mem_cons_of_mem _ h)
    have hevs := attemptsOn_runAttempts (beh m') m' m mr 0 2 none hne
    simp only [runModels]
    rcases hq : runAttempts (beh m') m' mr 0 2 none with ⟨out, evs⟩
    rw [hq] at hevs
    cases out with
    | success t => simpa using hevs
    | raised msg => simpa using hevs
    | exhausted le =>
      cases le with
      | none =>
        simp only [attemptsOn] at hevs ⊢
        simp [List.countP_append, hevs, attemptsOn, ih hrest]
        have := ih hrest
        simpa [attemptsOn] using this
      | some e =>
        by_cases hrl : is_rate_limit_error e
        · simp only [hrl, if_true]
          simp only [attemptsOn] at hevs ⊢
          have := ih hrest
          simp [List.countP_append, hevs]
          simpa [attemptsOn] using this
        · simpa [hrl, attemptsOn] using hevs

theorem rate_limited_of_exhausted_aux (beh : Nat → ApiOutcome) (m' : String) (mr : Nat) :
    ∀ fuel a d le e, fuel = mr - a → (le = none ∨ 0 < fuel) →
      (runAttemptsAux beh m' mr fuel a d le).1 = InnerOutcome.exhausted (some e) →
      is_rate_limit_error e = true := by
  intro fuel
  induction fuel with
  | zero =>
    intro a d le e _ hinv h
    simp only [runAttemptsAux] at h
    rcases hinv with hn | h0
    · rw [hn] at h
      simp at h
    · omega
  | succ f ih =>
    intro a d le e hfa hinv h
    simp only [runAttemptsAux] at h
    rcases hb : beh a with t | msg <;> rw [hb] at h
    · simp at h
    · by_cases hr : is_rate_limit_error msg
      · simp [hr] at h
        exact h ▸ hr
      · by_cases hn : is_network_error msg = true ∧ a < mr - 1
        · simp only [hr, if_false, hn, if_true, if_neg, Bool.false_eq_true] at h
          simp [hr, hn] at h
          refine ih (a + 1) (d * 2) (some msg) e (by omega) (Or.inr (by omega)) h
        · simp [hr, hn] at h

theorem rate_limited_of_exhausted (beh : Nat → ApiOutcome) (m' : String) (mr d : Nat)
    (e : String)
    (h : (runAttempts beh m' mr 0 d none).1 = InnerOutcome.exhausted (some e)) :
    is_rate_limit_error e = true :=
  rate_limited_of_exhausted_aux beh m' mr (mr - 0) 0 d none e rfl (Or.inl rfl) h

/-- C10: the post-loop branch of `_call_api_with_retry` that re-raises a
non-rate-limit last error is unreachable — removing it (`runModelsNoRecheck`)
does not change the function; whenever the per-model attempt loop is left
without returning or raising, the last recorded error is rate-limit
classified; and a non-rate-limit, non-network error propagates at the very
attempt where it occurs. -/
theorem claim_recheck_branch_unreachable :
    (∀ beh mr all l, runModels beh mr all l = runModelsNoRecheck beh mr all l) ∧
    (∀ beh m mr d e,
      (runAttempts beh m mr 0 d none).1 = InnerOutcome.exhausted (some e) →
      is_rate_limit_error e = true) ∧
    (∀ beh m mr a d le msg, a < mr → beh a = ApiOutcome.failure msg →
      is_rate_limit_error msg = false → is_network_error msg = false →
      (runAttempts beh m mr a d le).1 = InnerOutcome.raised msg) := by
  refine ⟨?_, fun beh m mr d e h => rate_limited_of_exhausted beh m mr d e h, ?_⟩
  · intro beh mr all l
    induction l with
    | nil => rfl
    | cons m rest ih =>
      simp only [runModels, runModelsNoRecheck]
      rcases hq : runAttempts (beh m) m mr 0 2 none with ⟨out, evs⟩
      cases out with
      | success t => rfl
      | raised msg => rfl
      | exhausted le =>
        cases le with
        | none => simp [ih]
        | some e =>
          have hrl : is_rate_limit_error e = true := by
            apply rate_limited_of_exhausted (beh m) m mr 2 e
            rw [hq]
          simp [hrl, ih]
  · intro beh m mr a d le msg ha hb hr hn
    obtain ⟨f, hf⟩ : ∃ f, mr - a = f + 1 := ⟨mr - a - 1, by omega⟩
    show (runAttemptsAux beh m mr (mr - a) a d le).1 = InnerOutcome.raised msg
    rw [hf]
    simp [runAttemptsAux, hb, hr, hn]

/-- Witness for C10: the second conjunct at a request where every attempt is
rate limited, and the third at a request whose first attempt raises a fatal
error. -/
theorem claim_recheck_branch_unreachable_witness :
    is_rate_limit_error "429" = true ∧
    (runAttempts (fun _ => ApiOutcome.failure "boom") "m" 3 0 2 none).1 =
      InnerOutcome.raised "boom" := by
  constructor
  · exact claim_recheck_branch_unreachable.2.1 (fun _ => ApiOutcome.failure "429")
      "m" 3 2 "429" rfl
  · exact claim_recheck_branch_unreachable.2.2 (fun _ => ApiOutcome.failure "boom")
      "m" 3 0 2 none "boom" (by decide) rfl (by decide) (by decide)

/-- C2: a rate-limit-classified error on ANY attempt against a model ends
that model's loop at once with just that attempt event, so no further
attempt is made against the model; whenever a model's loop exits with a
rate-limit-classified recorded error the orchestrator advances to the next
candidate immediately; and a rate-limit error on the first attempt yields
an observed attempt count of exactly 1 for that model over the whole
request. -/
theorem claim_rate_limit_short_circuit :
    (∀ beh m mr a d le e, a < mr → beh a = ApiOutcome.failure e →
      is_rate_limit_error e = true →
      runAttempts beh m mr a d le =
        (InnerOutcome.exhausted (some e), [Event.attempt m a])) ∧
    (∀ beh all_models rest m mr e evs,
      runAttempts (beh m) m mr 0 2 none = (InnerOutcome.exhausted (some e), evs) →
      is_rate_limit_error e = true →
      runModels beh mr all_models (m :: rest) =
        ((runModels beh mr all_models rest).1,
          evs ++ (runModels beh mr all_models rest).2)) ∧
    (∀ beh all_models rest m e mr, 0 < mr → m ∉ rest →
      beh m 0 = ApiOutcome.failure e → is_rate_limit_error e = true →
      attemptsOn m (runModels beh mr all_models (m :: rest)).2 = 1) := by
  have part1 : ∀ (beh : Nat → ApiOutcome) m mr a d le e, a < mr →
      beh a = ApiOutcome.failure e → is_rate_limit_error e = true →
      runAttempts beh m mr a d le =
        (InnerOutcome.exhausted (some e), [Event.attempt m a]) := by
    intro beh m mr a d le e ha hb hr
    obtain ⟨f, hf⟩ : ∃ f, mr - a = f + 1 := ⟨mr - a - 1, by omega⟩
    show runAttemptsAux beh m mr (mr - a) a d le = _
    rw [hf]
    simp [runAttemptsAux, hb, hr]
  have part2 : ∀ (beh : String → Nat → ApiOutcome) all_models rest m mr e evs,
      runAttempts (beh m) m mr 0 2 none = (InnerOutcome.exhausted (some e), evs) →
      is_rate_limit_error e = true →
      runModels beh mr all_models (m :: rest) =
        ((runModels beh mr all_models rest).1,
          evs ++ (runModels beh mr all_models rest).2) := by
    intro beh all_models rest m mr e evs hq hrl
    simp only [runModels]
    rw [hq]
    simp [hrl]
  refine ⟨part1, part2, ?_⟩
  intro beh all_models rest m e mr hmr hnm hb hr
  have h1 := part1 (beh m) m mr 0 2 none e (by omega) hb hr
  have h2 := part2 beh all_models rest m mr e [Event.attempt m 0] h1 hr
  rw [h2]
  have h0 := attemptsOn_runModels beh mr all_models m rest hnm
  simp [attemptsOn, isAttemptOn] at h0 ⊢
  simpa [attemptsOn] using h0

/-- Witness for C2: a model timing out twice and hitting a rate limit on
its third attempt stops right there with that single further attempt, and
a first-attempt rate limit contributes exactly one attempt to the whole
request's trace. -/
theorem claim_rate_limit_short_circuit_witness :
    runAttempts
        (fun a => if a < 2 then ApiOutcome.failure "timeout" else ApiOutcome.failure "429")
        "m" 3 2 8 (some "timeout") =
      (InnerOutcome.exhausted (some "429"), [Event.attempt "m" 2]) ∧
    attemptsOn "a"
      (runModels (fun _ _ => ApiOutcome.failure "429") 3 [ "a", "b" ] [ "a", "b" ]).2 = 1 :=
  ⟨claim_rate_limit_short_circuit.1
      (fun a => if a < 2 then ApiOutcome.failure "timeout" else ApiOutcome.failure "429")
      "m" 3 2 8 (some "timeout") "429" (by omega) rfl (by decide),
    claim_rate_limit_short_circuit.2.2 (fun _ _ => ApiOutcome.failure "429") [ "a", "b" ]
      [ "b" ] "a" "429" 3 (by decide) (by decide) rfl (by decide)⟩

/-- C3: on a transient network error with retries remaining the loop sleeps
the current `retry_delay` and doubles it for the next attempt of the same
model (general step), and with `max_retries = 3` a model failing
transiently on attempts 1 and 2 and succeeding on attempt 3 produces
exactly the sleeps `sleep(2)` then `sleep(4)`. -/
theorem claim_exponential_backoff :
    (∀ beh m mr a d le msg, a < mr - 1 → beh a = ApiOutcome.failure msg →
      is_rate_limit_error msg = false → is_network_error msg = true →
      runAttempts beh m mr a d le =
        ((runAttempts beh m mr (a + 1) (d * 2) (some msg)).1,
          Event.attempt m a :: Event.sleep d ::
            (runAttempts beh m mr (a + 1) (d * 2) (some msg)).2)) ∧
    (∀ beh m e1 e2 s,
      beh 0 = ApiOutcome.failure e1 → beh 1 = ApiOutcome.failure e2 →
      beh 2 = ApiOutcome.success s →
      is_rate_limit_error e1 = false → is_network_error e1 = true →
      is_rate_limit_error e2 = false → is_network_error e2 = true →
      runAttempts beh m 3 0 2 none =
        (InnerOutcome.success (trimStr s),
          [Event.attempt m 0, Event.sleep 2, Event.attempt m 1, Event.sleep 4,
           Event.attempt m 2]) ∧
      sleepsOf (runAttempts beh m 3 0 2 none).2 = [2, 4]) := by
  have step : ∀ beh m mr a d le msg, a < mr - 1 → beh a = ApiOutcome.failure msg →
      is_rate_limit_error msg = false → is_network_error msg = true →
      runAttempts beh m mr a d le =
        ((runAttempts beh m mr (a + 1) (d * 2) (some msg)).1,
          Event.attempt m a :: Event.sleep d ::
            (runAttempts beh m mr (a + 1) (d * 2) (some msg)).2) := by
    intro beh m mr a d le msg ha hb hr hn
    obtain ⟨f, hf⟩ : ∃ f, mr - a = f + 1 := ⟨mr - a - 1, by omega⟩
    show runAttemptsAux beh m mr (mr - a) a d le = _
    rw [hf]
    have hfa : f = mr - (a + 1) := by omega
    simp only [runAttemptsAux, hb, hr, Bool.false_eq_true, if_false, hn, ha, and_self,
      if_true, true_and, if_pos]
    rw [hfa]
    rfl
  refine ⟨step, ?_⟩
  intro beh m e1 e2 s hb0 hb1 hb2 hr1 hn1 hr2 hn2
  have hlast : runAttempts beh m 3 2 8 (some e2) =
      (InnerOutcome.success (trimStr s), [Event.attempt m 2]) := by
    show runAttemptsAux beh m 3 (3 - 2) 2 8 (some e2) = _
    simp [runAttemptsAux, hb2]
  have h1 : runAttempts beh m 3 1 4 (some e1) =
      (InnerOutcome.success (trimStr s),
        [Event.attempt m 1, Event.sleep 4, Event.attempt m 2]) := by
    rw [step beh m 3 1 4 (some e1) e2 (by omega) hb1 hr2 hn2, hlast]
  have h0 : runAttempts beh m 3 0 2 none =
      (InnerOutcome.success (trimStr s),
        [Event.attempt m 0, Event.sleep 2, Event.attempt m 1, Event.sleep 4,
         Event.attempt m 2]) := by
    rw [step beh m 3 0 2 none e1 (by omega) hb0 hr1 hn1, h1]
  refine ⟨h0, ?_⟩
  rw [h0]
  rfl

/-- Witness for C3: a model timing out twice then succeeding, observed
sleeps `[2, 4]`. -/
theorem claim_exponential_backoff_witness :
    runAttempts
        (fun a => if a < 2 then ApiOutcome.failure "timeout" else ApiOutcome.success "ok")
        "m" 3 0 2 none =
      (InnerOutcome.success (trimStr "ok"),
        [Event.attempt "m" 0, Event.sleep 2, Event.attempt "m" 1, Event.sleep 4,
         Event.attempt "m" 2]) ∧
    sleepsOf (runAttempts
        (fun a => if a < 2 then ApiOutcome.failure "timeout" else ApiOutcome.success "ok")
        "m" 3 0 2 none).2 = [2, 4] :=
  claim_exponential_backoff.2
    (fun a => if a < 2 then ApiOutcome.failure "timeout" else ApiOutcome.success "ok")
    "m" "timeout" "timeout" "ok" rfl rfl rfl
    (by decide) (by decide) (by decide) (by decide)

theorem join_comma_mem (m : String) : ∀ l : List String, m ∈ l →
    ∃ s t, join_comma l = s ++ m ++ t := by
  intro l
  induction l with
  | nil => simp
  | cons x rest ih =>
    intro hm
    match rest, ih with
    | [], _ =>
      have hx : m = x := by simpa using hm
      subst hx
      exact ⟨"", "", by simp [join_comma]⟩
    | y :: rest', ih =>
      rcases List.mem_cons.mp hm with rfl | hm'
      · refine ⟨"", ", " ++ join_comma (y :: rest'), ?_⟩
        show join_comma (m :: y :: rest') = "" ++ m ++ (", " ++ join_comma (y :: rest'))
        simp [join_comma, String.append_assoc]
      · obtain ⟨s, t, hst⟩ := ih hm'
        refine ⟨x ++ ", " ++ s, t, ?_⟩
        show join_comma (x :: y :: rest') = x ++ ", " ++ s ++ m ++ t
        simp only [join_comma]
        rw [hst]
        simp [String.append_assoc]

theorem runModels_all_rate_limited (beh : String → Nat → ApiOutcome) (mr : Nat)
    (all : List String) : ∀ l : List String,
    (∀ m ∈ l, ∃ e,
      (runAttempts (beh m) m mr 0 2 none).1 = InnerOutcome.exhausted (some e) ∧
      is_rate_limit_error e = true) →
    (runModels beh mr all l).1 = CallOutcome.raised (aggregate_message all) := by
  intro l
  induction l with
  | nil => intro _; rfl
  | cons m rest ih =>
    intro h
    obtain ⟨e, he, hrl⟩ := h m (List.mem_cons_self _ _)
    simp only [runModels]
    rcases hq : runAttempts (beh m) m mr 0 2 none with ⟨out, evs⟩
    rw [hq] at he
    simp only at he
    subst he
    simp only [hrl, if_true]
    exact ih (fun m' hm' => h m' (List.mem_cons_of_mem _ hm'))

/-- C4: when every candidate model's attempt loop ends with a recorded
rate-limit error, the orchestrator raises the single aggregate
rate-limit-exceeded error, and its message contains every model tried as a
substring. -/
theorem claim_rate_limit_exhaustion :
    ∀ beh primary mr,
      (∀ m ∈ models_to_try primary, ∃ e,
        (runAttempts (beh m) m mr 0 2 none).1 = InnerOutcome.exhausted (some e) ∧
        is_rate_limit_error e = true) →
      (call_api_with_retry beh primary mr).1 =
        CallOutcome.raised (aggregate_message (models_to_try primary)) ∧
      ∀ m ∈ models_to_try primary, ∃ s t,
        aggregate_message (models_to_try primary) = s ++ m ++ t := by
  intro beh primary mr h
  refine ⟨runModels_all_rate_limited beh mr (models_to_try primary)
    (models_to_try primary) h, ?_⟩
  intro m hm
  obtain ⟨s, t, hst⟩ := join_comma_mem m (models_to_try primary) hm
  refine ⟨"API rate limit exceeded on all models. Models tried: " ++ s, t, ?_⟩
  rw [aggregate_message, hst]
  simp [String.append_assoc]

/-- Witness for C4: every candidate rate-limited on its first attempt; the
aggregate message names, in particular, the last fallback model. -/
theorem claim_rate_limit_exhaustion_witness :
    (call_api_with_retry (fun _ _ => ApiOutcome.failure "429") "gemini-2.5-flash" 3).1 =
      CallOutcome.raised (aggregate_message (models_to_try "gemini-2.5-flash")) ∧
    ∃ s t, aggregate_message (models_to_try "gemini-2.5-flash") =
      s ++ "gemini-3.0-flash" ++ t := by
  have h := claim_rate_limit_exhaustion (fun _ _ => ApiOutcome.failure "429")
    "gemini-2.5-flash" 3 (fun m _ => ⟨"429", rfl, by decide⟩)
  exact ⟨h.1, h.2 "gemini-3.0-flash" (by decide)⟩

theorem scanClose_shift : ∀ (cs : List Char) (d : Int) (i : Nat),
    scanClose cs d i = (scanClose cs d 0).map (fun k => k + i) := by
  intro cs
  induction cs with
  | nil => intro d i; rfl
  | cons ch rest ih =>
    intro d i
    by_cases h1 : (ch == lbrace) = true
    · simp only [scanClose, h1, if_true]
      rw [ih (d + 1) (i + 1), ih (d + 1) (0 + 1)]
      cases hX : scanClose rest (d + 1) 0 <;> simp [hX]
      omega
    · by_cases h2 : (ch == rbrace) = true
      · by_cases h3 : d - 1 = 0
        · simp [scanClose, h1, h2, h3]
        · simp only [scanClose, h1, h2, h3, if_true, if_false, Bool.false_eq_true]
          rw [ih (d - 1) (i + 1), ih (d - 1) (0 + 1)]
          cases hX : scanClose rest (d - 1) 0 <;> simp [hX, h3]
          omega
      · simp only [scanClose, h1, h2, if_false, Bool.false_eq_true]
        rw [ih d (i + 1), ih d (0 + 1)]
        cases hX : scanClose rest d 0 <;> simp [hX, h1, h2]
        omega

theorem scanClose_zero_spec : ∀ (cs : List Char) (d : Int), 0 < d →
    ∀ n, scanClose cs d 0 = some n →
    n < cs.length ∧ d + braceDelta (cs.take (n + 1)) = 0 ∧
      ∀ k, k ≤ n → d + braceDelta (cs.take k) ≠ 0 := by
  intro cs
  induction cs with
  | nil => intro d _ n h; simp [scanClose] at h
  | cons ch rest ih =>
    intro d hd n h
    by_cases h1 : (ch == lbrace) = true
    · simp only [scanClose, h1, if_true] at h
      rw [scanClose_shift rest (d + 1) (0 + 1)] at h
      rcases hX : scanClose rest (d + 1) 0 with _ | n'
      · rw [hX] at h; simp at h
      · rw [hX] at h
        simp at h
        obtain ⟨hlen, hdelta, hmin⟩ := ih (d + 1) (by omega) n' hX
        subst h
        refine ⟨by simpa using Nat.succ_lt_succ hlen, ?_, ?_⟩
        · simp only [List.take_succ_cons, braceDelta, h1, if_true]
          omega
        · intro k hk
          cases k with
          | zero => simp [braceDelta]; omega
          | succ k' =>
            simp only [List.take_succ_cons, braceDelta, h1, if_true]
            have := hmin k' (by omega)
            omega
    · by_cases h2 : (ch == rbrace) = true
      · by_cases h3 : d - 1 = 0
        · simp only [scanClose, h1, h2, h3, if_true, if_false, Bool.false_eq_true] at h
          simp at h
          subst h
          refine ⟨by simp, ?_, ?_⟩
          · simp only [List.take_succ_cons, braceDelta, h1, h2, if_true, if_false,
              Bool.false_eq_true, List.take_nil]
            simp [braceDelta]
            omega
          · intro k hk
            interval_cases k
            simp [braceDelta]
            omega
        · simp only [scanClose, h1, h2, h3, if_true, if_false, Bool.false_eq_true] at h
          rw [scanClose_shift rest (d - 1) (0 + 1)] at h
          rcases hX : scanClose rest (d - 1) 0 with _ | n'
          · rw [hX] at h; simp at h
          · rw [hX] at h
            simp at h
            obtain ⟨hlen, hdelta, hmin⟩ := ih (d - 1) (by omega) n' hX
            subst h
            refine ⟨by simpa using Nat.succ_lt_succ hlen, ?_, ?_⟩
            · simp only [List.take_succ_cons, braceDelta, h1, h2, if_true, if_false,
                Bool.false_eq_true]
              omega
            · intro k hk
              cases k with
              | zero => simp [braceDelta]; omega
              | succ k' =>
                simp only [List.take_succ_cons, braceDelta, h1, h2, if_true, if_false,
                  Bool.false_eq_true]
                have := hmin k' (by omega)
                omega
      · simp only [scanClose, h1, h2, if_false, Bool.false_eq_true] at h
        rw [scanClose_shift rest d (0 + 1)] at h
        rcases hX : scanClose rest d 0 with _ | n'
        · rw [hX] at h; simp at h
        · rw [hX] at h
          simp at h
          obtain ⟨hlen, hdelta, hmin⟩ := ih d hd n' hX
          subst h
          refine ⟨by simpa using Nat.succ_lt_succ hlen, ?_, ?_⟩
          · simp only [List.take_succ_cons, braceDelta, h1, h2, if_false,
              Bool.false_eq_true]
            omega
          · intro k hk
            cases k with
            | zero => simp [braceDelta]; omega
            | succ k' =>
              simp only [List.take_succ_cons, braceDelta, h1, h2, if_false,
                Bool.false_eq_true]
              have := hmin k' (by omega)
              omega

theorem findCharIdx_drop (c : Char) : ∀ (cs : List Char) (i : Nat),
    findCharIdx c cs = some i → ∃ rest, cs.drop i = c :: rest := by
  intro cs
  induction cs with
  | nil => intro i h; simp [findCharIdx] at h
  | cons x xs ih =>
    intro i h
    simp only [findCharIdx] at h
    by_cases hx : (x == c) = true
    · rw [if_pos hx] at h
      simp at h
      subst h
      exact ⟨xs, by simpa using (beq_iff_eq.mp hx)⟩
    · rw [if_neg (by simpa using hx)] at h
      rcases hfi : findCharIdx c xs with _ | j
      · rw [hfi] at h; simp at h
      · rw [hfi] at h
        simp at h
        subst h
        obtain ⟨rest, hr⟩ := ih j hfi
        exact ⟨rest, by simpa using hr⟩

/-- Counterexample for C5: the two extraction sites disagree.  On text with
a stray closing brace after the balanced object, the template generator's
brace-depth scan selects the balanced object, while the note generator's
first-brace-to-last-brace slice keeps the trailing junk — so "the
JSON-boundary extraction selects exactly the brace-depth-matching
substring" is false of the note generator. -/
theorem claim_json_extraction_counterexample :
    extract_template_candidate ( "\x7b\"a\": 1\x7d x \x7d" : String).data =
      Except.ok ( "\x7b\"a\": 1\x7d" : String).data ∧
    extract_note_candidate ( "\x7b\"a\": 1\x7d x \x7d" : String).data =
      ( "\x7b\"a\": 1\x7d x \x7d" : String).data ∧
    ( "\x7b\"a\": 1\x7d x \x7d" : String).data ≠ ( "\x7b\"a\": 1\x7d" : String).data :=
  ⟨rfl, rfl, by decide⟩

/-- C5 (amended): the template generator's extraction selects exactly the
substring from the first opening brace through the brace-depth-matching
closing brace (the first position where the running brace count returns to
zero — no special handling of braces inside string literals), and fails
when the text has no opening brace; the note generator instead slices from
the first opening brace through the last closing brace of the whole text
and uses the entire text when no opening brace exists; on the example
text both sites extract exactly the nested object. -/
theorem claim_json_extraction_amended :
    (∀ cs sub, extract_template_candidate cs = Except.ok sub →
      ∃ i n, findCharIdx lbrace cs = some i ∧ sub = (cs.drop i).take n ∧ 0 < n ∧
        braceDelta sub = 0 ∧
        ∀ m, 0 < m → m < n → braceDelta ((cs.drop i).take m) ≠ 0) ∧
    (∀ cs, findCharIdx lbrace cs = none →
      extract_template_candidate cs = Except.error "No JSON found in model output") ∧
    (∀ cs, findCharIdx lbrace cs = none → extract_note_candidate cs = cs) ∧
    (∀ cs i j, findCharIdx lbrace cs = some i → rfindCharIdx rbrace cs = some j →
      extract_note_candidate cs = (cs.take (j + 1)).drop i) ∧
    extract_template_candidate
        ( "Sure! \x7b\"a\": 1, \"b\": \x7b\"c\": 2\x7d\x7d Hope that helps." : String).data =
      Except.ok ( "\x7b\"a\": 1, \"b\": \x7b\"c\": 2\x7d\x7d" : String).data ∧
    extract_note_candidate
        ( "Sure! \x7b\"a\": 1, \"b\": \x7b\"c\": 2\x7d\x7d Hope that helps." : String).data =
      ( "\x7b\"a\": 1, \"b\": \x7b\"c\": 2\x7d\x7d" : String).data := by
  refine ⟨?_, ?_, ?_, ?_, rfl, rfl⟩
  · intro cs sub hok
    rcases hfi : findCharIdx lbrace cs with _ | start
    · simp [extract_template_candidate, hfi] at hok
    · rcases hsc : scanClose (cs.drop start) 0 start with _ | endIdx
      · simp [extract_template_candidate, hfi, hsc] at hok
      · replace hok : (cs.take (endIdx + 1)).drop start = sub := by
          have hval : extract_template_candidate cs =
              Except.ok ((cs.take (endIdx + 1)).drop start) := by
            simp [extract_template_candidate, hfi, hsc]
          rw [hval] at hok
          simpa using hok
        obtain ⟨rest0, hdrop⟩ := findCharIdx_drop lbrace cs start hfi
        rw [hdrop] at hsc
        have hlb : (lbrace == lbrace) = true := by decide
        simp only [scanClose, hlb, if_true] at hsc
        rw [scanClose_shift rest0 (0 + 1) (start + 1)] at hsc
        rcases hX : scanClose rest0 (0 + 1) 0 with _ | n'
        · rw [hX] at hsc; simp at hsc
        · rw [hX] at hsc
          simp at hsc
          obtain ⟨hlen, hdelta, hmin⟩ := scanClose_zero_spec rest0 (0 + 1) (by norm_num) n' hX
          refine ⟨start, n' + 2, rfl, ?_, by omega, ?_, ?_⟩
          · rw [← hok, List.drop_take]
            congr 1
            omega
          · rw [← hok, List.drop_take, hdrop]
            have he : endIdx + 1 - start = n' + 2 := by omega
            rw [he, List.take_succ_cons]
            simp only [braceDelta, hlb, if_true]
            omega
          · intro m hm0 hmn
            rw [hdrop]
            obtain ⟨k, rfl⟩ : ∃ k, m = k + 1 := ⟨m - 1, by omega⟩
            rw [List.take_succ_cons]
            simp only [braceDelta, hlb, if_true]
            have := hmin k (by omega)
            omega
  · intro cs h; simp [extract_template_candidate, h]
  · intro cs h; simp [extract_note_candidate, h]
  · intro cs i j hi hj; simp [extract_note_candidate, hi, hj]

/-- Witness for C5 (amended): the brace-depth characterization applied at a
concrete text with leading junk. -/
theorem claim_json_extraction_amended_witness :
    ∃ i n, findCharIdx lbrace ( "x \x7b\x7dy" : String).data = some i ∧
      ( "\x7b\x7d" : String).data = (( "x \x7b\x7dy" : String).data.drop i).take n ∧ 0 < n ∧
      braceDelta ( "\x7b\x7d" : String).data = 0 ∧
      ∀ m, 0 < m → m < n →
        braceDelta ((( "x \x7b\x7dy" : String).data.drop i).take m) ≠ 0 :=
  claim_json_extraction_amended.1 ( "x \x7b\x7dy" : String).data ( "\x7b\x7d" : String).data rfl

/-- Counterexample for C7: the template generator's parse-failure envelope
carries only `"Failed to parse AI response: <message>"` — the raw generated
text is not contained in it (it is only logged), and the envelope has no
elapsed-time field at all. -/
theorem claim_parse_failure_payload_counterexample :
    generate_template_fields true
        "A sufficiently long medical document text used for template analysis."
        (Except.ok "\x7bbad\x7d")
        (fun _ => Except.error "Expecting value: line 1 column 2 (char 1)") =
      ⟨false, [], "Failed to parse AI response: Expecting value: line 1 column 2 (char 1)"⟩ ∧
    containsSub "Failed to parse AI response: Expecting value: line 1 column 2 (char 1)"
      "\x7bbad\x7d" = false :=
  ⟨rfl, by decide⟩

/-- C7 (amended): on a JSON parse failure the note generator returns the
raw generated text, the parse error message and the elapsed time in its
failure result; the template generator returns only an error string made
of a fixed prefix and the parse error message (no raw text, no elapsed
time in its three-field envelope). -/
theorem claim_parse_failure_payload_amended :
    (∀ (raw t je : String) (parse : List Char → Except String JVal),
      trimChars raw.data ≠ [] →
      parse (extract_note_candidate (trimChars raw.data)) = Except.error je →
      generate_note_from_text true true (Except.ok raw) t parse =
        [("error", JVal.jstr "Model did not return valid JSON"),
         ("raw_output", JVal.jstr (String.mk (trimChars raw.data))),
         ("parse_error", JVal.jstr je),
         ("_generation_time", JVal.jstr t)]) ∧
    (∀ (doc raw je : String) (cand : List Char) (parse : List Char → Except String JVal),
      doc ≠ "" → ¬ doc.length < 50 →
      extract_template_candidate (trimChars raw.data) = Except.ok cand →
      parse cand = Except.error je →
      generate_template_fields true doc (Except.ok raw) parse =
        ⟨false, [], "Failed to parse AI response: " ++ je⟩) := by
  constructor
  · intro raw t je parse hne hp
    simp [generate_note_from_text, hne, hp]
  · intro doc raw je cand parse hd hl hcand hp
    simp [generate_template_fields, hd, hl, hcand, hp]

/-- Witness for C7 (amended): both conjuncts at a concrete parse failure. -/
theorem claim_parse_failure_payload_amended_witness :
    generate_note_from_text true true (Except.ok "\x7bbad\x7d") "1.00s"
        (fun _ => Except.error "boom") =
      [("error", JVal.jstr "Model did not return valid JSON"),
       ("raw_output", JVal.jstr (String.mk (trimChars ( "\x7bbad\x7d" : String).data))),
       ("parse_error", JVal.jstr "boom"),
       ("_generation_time", JVal.jstr "1.00s")] ∧
    generate_template_fields true
        "A sufficiently long medical document text used for template analysis."
        (Except.ok "\x7bbad\x7d") (fun _ => Except.error "boom") =
      ⟨false, [], "Failed to parse AI response: " ++ "boom"⟩ :=
  ⟨claim_parse_failure_payload_amended.1 "\x7bbad\x7d" "1.00s" "boom"
      (fun _ => Except.error "boom") (by decide) rfl,
    claim_parse_failure_payload_amended.2
      "A sufficiently long medical document text used for template analysis."
      "\x7bbad\x7d" "boom" ( "\x7bbad\x7d" : String).data
      (fun _ => Except.error "boom") (by decide) (by decide) rfl rfl⟩

/-- Counterexample for C8: a successful upload followed by a failed
generation call returns the error envelope without ever invoking
`files.delete` — the uploaded attachment is not removed. -/
theorem claim_upload_cleanup_counterexample :
    (gemini_transcribe ⟨true, 100, Except.ok "files/abc", "ACTIVE", Except.error "boom"⟩
      "a.wav").2 = false ∧
    (gemini_transcribe ⟨true, 100, Except.ok "files/abc", "ACTIVE", Except.error "boom"⟩
      "a.wav").1.success = false :=
  ⟨rfl, rfl⟩

/-- C8 (amended): over every successful-upload run — if the remote
processing poll reports FAILED, the function returns the error envelope
without deleting the attachment; otherwise the attachment is deleted
before returning exactly when the generation call succeeds, and a failed
generation call returns the error envelope without deleting the
attachment. -/
theorem claim_upload_cleanup_amended :
    ∀ (env : TranscribeEnv) (path f : String),
      env.file_exists = true → env.file_size ≠ 0 →
      env.upload = Except.ok f →
      (env.poll_state = "FAILED" →
        (gemini_transcribe env path).2 = false ∧
        (gemini_transcribe env path).1.error = "Gemini failed to process audio file") ∧
      (env.poll_state ≠ "FAILED" →
        (∀ t, env.generation = Except.ok t → (gemini_transcribe env path).2 = true) ∧
        (∀ e, env.generation = Except.error e → (gemini_transcribe env path).2 = false)) := by
  intro env path f hex hsz hup
  refine ⟨?_, ?_⟩
  · intro hpoll
    refine ⟨?_, ?_⟩ <;> simp [gemini_transcribe, hex, hsz, hup, hpoll]
  · intro hpoll
    constructor
    · intro t hgen
      simp [gemini_transcribe, hex, hsz, hup, hpoll, hgen]
    · intro e hgen
      simp [gemini_transcribe, hex, hsz, hup, hpoll, hgen]

/-- Witness for C8 (amended): at concrete environments, a FAILED poll and a
failed generation both leave the attachment undeleted, while a successful
generation deletes it. -/
theorem claim_upload_cleanup_amended_witness :
    (gemini_transcribe ⟨true, 100, Except.ok "files/abc", "FAILED", Except.ok "hello"⟩
      "a.wav").2 = false ∧
    (gemini_transcribe ⟨true, 100, Except.ok "files/abc", "ACTIVE", Except.ok "hello"⟩
      "a.wav").2 = true ∧
    (gemini_transcribe ⟨true, 100, Except.ok "files/abc", "ACTIVE", Except.error "x"⟩
      "a.wav").2 = false :=
  ⟨((claim_upload_cleanup_amended ⟨true, 100, Except.ok "files/abc", "FAILED", Except.ok "hello"⟩
      "a.wav" "files/abc" rfl (by decide) rfl).1 rfl).1,
    ((claim_upload_cleanup_amended ⟨true, 100, Except.ok "files/abc", "ACTIVE", Except.ok "hello"⟩
      "a.wav" "files/abc" rfl (by decide) rfl).2 (by decide)).1 "hello" rfl,
    ((claim_upload_cleanup_amended ⟨true, 100, Except.ok "files/abc", "ACTIVE", Except.error "x"⟩
      "a.wav" "files/abc" rfl (by decide) rfl).2 (by decide)).2 "x" rfl⟩

theorem append_ne_empty_left (p q : String) (hp : p ≠ "") : p ++ q ≠ "" := by
  intro h
  apply hp
  have hd := congrArg String.data h
  rw [String.data_append] at hd
  have hemp : ("" : String).data = [] := rfl
  rw [hemp] at hd
  rcases List.append_eq_nil.mp hd with ⟨h1, _⟩
  cases p
  cases hemp ▸ h1
  rfl

/-- Counterexample for C9: the note generator's failure result is a mapping
with only an `error` key — it has no boolean success flag at all. -/
theorem claim_envelope_counterexample :
    generate_note_from_text false true (Except.ok "x") "0.00s"
        (fun _ => Except.error "e") =
      [("error", JVal.jstr "Model not available")] ∧
    getKey "success"
      (generate_note_from_text false true (Except.ok "x") "0.00s"
        (fun _ => Except.error "e")) = none :=
  ⟨rfl, rfl⟩

/-- C9 (amended): text cleaning, template extraction and transcription
return a uniform envelope whose boolean success flag is true with an empty
error string, or false with a non-empty error string (non-emptiness of the
oracle failure messages assumed where the code copies them verbatim); note
generation instead signals failure through a mapping with an `error` key
and no `success` flag. -/
theorem claim_envelope_amended :
    (∀ ml s gen,
      (clean_text ml s gen).success = true ∧ (clean_text ml s gen).error = "" ∨
      (clean_text ml s gen).success = false ∧ (clean_text ml s gen).error ≠ "") ∧
    (∀ ml doc gen parse, (∀ e, gen = Except.error e → e ≠ "") →
      ((generate_template_fields ml doc gen parse).success = true ∧
        (generate_template_fields ml doc gen parse).error = "") ∨
      ((generate_template_fields ml doc gen parse).success = false ∧
        (generate_template_fields ml doc gen parse).error ≠ "")) ∧
    (∀ (env : TranscribeEnv) path,
      (∀ e, env.upload = Except.error e → e ≠ "") →
      (∀ e, env.generation = Except.error e → e ≠ "") →
      ((gemini_transcribe env path).1.success = true ∧
        (gemini_transcribe env path).1.error = "") ∨
      ((gemini_transcribe env path).1.success = false ∧
        (gemini_transcribe env path).1.error ≠ "")) ∧
    (∀ gen t parse ml tOk,
      (ml = false ∨ tOk = false ∨ (∃ e, gen = Except.error e) ∨
        (∃ raw je, gen = Except.ok raw ∧
          parse (extract_note_candidate (trimChars raw.data)) = Except.error je)) →
      getKey "success" (generate_note_from_text ml tOk gen t parse) = none ∧
      ∃ msg, getKey "error" (generate_note_from_text ml tOk gen t parse) =
        some (JVal.jstr msg)) := by
  refine ⟨?_, ?_, ?_, ?_⟩
  · intro ml s gen
    cases h : format_text ml s gen with
    | none => right; simp [clean_text, h]
    | some t => left; simp [clean_text, h]
  · intro ml doc gen parse hgen
    by_cases hml : ml = false
    · right; simp [generate_template_fields, hml]
    · replace hml : ml = true := by cases ml <;> simp_all
      by_cases hdoc : doc = "" ∨ doc.length < 50
      · right; simp [generate_template_fields, hml, hdoc]
      · cases gen with
        | error e =>
          right
          simp [generate_template_fields, hml, hdoc]
          exact hgen e rfl
        | ok raw =>
          rcases hx : extract_template_candidate (trimChars raw.data) with e | cand
          · right
            simp [generate_template_fields, hml, hdoc, hx]
            rcases hfi : findCharIdx lbrace (trimChars raw.data) with _ | i <;>
              simp [extract_template_candidate, hfi] at hx
            · simp [← hx]
            · rcases hsc : scanClose ((trimChars raw.data).drop i) 0 i with _ | j <;>
                simp [hsc] at hx
              simp [← hx]
          · cases hp : parse cand with
            | error je =>
              right
              simp [generate_template_fields, hml, hdoc, hx, hp]
              exact append_ne_empty_left "Failed to parse AI response: " je (by decide)
            | ok j =>
              cases j with
              | jobj fields => left; simp [generate_template_fields, hml, hdoc, hx, hp]
              | jstr s => right; simp [generate_template_fields, hml, hdoc, hx, hp]
              | jnum n => right; simp [generate_template_fields, hml, hdoc, hx, hp]
              | jbool b => right; simp [generate_template_fields, hml, hdoc, hx, hp]
              | jnull => right; simp [generate_template_fields, hml, hdoc, hx, hp]
              | jarr a => right; simp [generate_template_fields, hml, hdoc, hx, hp]
  · intro env path hup hgen
    by_cases hex : env.file_exists = false
    · right
      simp [gemini_transcribe, hex]
      exact append_ne_empty_left "Audio file not found: " path (by decide)
    · replace hex : env.file_exists = true := by
        cases h : env.file_exists <;> simp_all
      by_cases hsz : env.file_size = 0
      · right; simp [gemini_transcribe, hex, hsz]
      · cases hu : env.upload with
        | error e =>
          right
          simp [gemini_transcribe, hex, hsz, hu]
          exact hup e hu
        | ok f =>
          by_cases hpoll : env.poll_state = "FAILED"
          · right; simp [gemini_transcribe, hex, hsz, hu, hpoll]
          · cases hg : env.generation with
            | error e =>
              right
              simp [gemini_transcribe, hex, hsz, hu, hpoll, hg]
              exact hgen e hg
            | ok t => left; simp [gemini_transcribe, hex, hsz, hu, hpoll, hg]
  · intro gen t parse ml tOk hcase
    by_cases hml : ml = false
    · simp [generate_note_from_text, hml, getKey]
    · replace hml : ml = true := by cases ml <;> simp_all
      by_cases htok : tOk = false
      · simp [generate_note_from_text, hml, htok, getKey]
      · replace htok : tOk = true := by cases tOk <;> simp_all
        rcases hcase with h | h | ⟨e, he⟩ | ⟨raw, je, hraw, hp⟩
        · exact absurd hml (by simp [h])
        · exact absurd htok (by simp [h])
        · simp [generate_note_from_text, hml, htok, he, getKey]
        · subst hraw
          by_cases hne : trimChars raw.data = []
          · simp [generate_note_from_text, hml, htok, hne, getKey]
          · simp [generate_note_from_text, hml, htok, hne, hp, getKey]

/-- Witness for C9 (amended): a concrete successful transcription envelope,
and the note generator's flag-less failure mapping. -/
theorem claim_envelope_amended_witness :
    (((gemini_transcribe ⟨true, 100, Except.ok "f", "ACTIVE", Except.ok "hello"⟩
        "a.wav").1.success = true ∧
      (gemini_transcribe ⟨true, 100, Except.ok "f", "ACTIVE", Except.ok "hello"⟩
        "a.wav").1.error = "") ∨
     ((gemini_transcribe ⟨true, 100, Except.ok "f", "ACTIVE", Except.ok "hello"⟩
        "a.wav").1.success = false ∧
      (gemini_transcribe ⟨true, 100, Except.ok "f", "ACTIVE", Except.ok "hello"⟩
        "a.wav").1.error ≠ "")) ∧
    getKey "success"
      (generate_note_from_text false true (Except.ok "x") "t"
        (fun _ => Except.error "e")) = none :=
  ⟨claim_envelope_amended.2.2.1 ⟨true, 100, Except.ok "f", "ACTIVE", Except.ok "hello"⟩
      "a.wav" (fun e h => by cases h) (fun e h => by cases h),
    (claim_envelope_amended.2.2.2 (Except.ok "x") "t" (fun _ => Except.error "e")
      false true (Or.inl rfl)).1⟩
